import Mathlib

/-!
Shallow embedding of the HardHat `MainView` screen (src/views/main_view.py).

The screen manages four tabbed regions, each with a sentinel "[+]" add-affordance
tab; a per-region monotone tab counter; a command input with history recall; a
widget factory; and a polling-driven broadcast update over all mounted widgets.

Python strings are modelled as Lean `String` (a list of code points); Python
`str.startswith`, `str.removeprefix` and slicing are modelled code-point-wise.
The dictionaries `tab_counters` and the per-region pane sequences have a fixed
key set (the four region keys), so they are modelled as total functions from
`String`; `add_tab_map` is modelled as an association list because the code
iterates it in insertion order.
-/

/-- Code-point-wise "is this list a leading segment of that one", modelling
Python `str.startswith` on the underlying code point sequences. -/
def charsIsPfxOf : List Char → List Char → Bool
  | [], _ => true
  | _ :: _, [] => false
  | a :: as, b :: bs => a == b && charsIsPfxOf as bs

/-- Python `s.startswith(pre)`. -/
def py_startswith (s pre : String) : Bool :=
  charsIsPfxOf pre.data s.data

/-- Python `s.removeprefix(pre)` (3.9+): drop the leading occurrence of `pre`
if present, otherwise return `s` unchanged. -/
def py_removestart (s pre : String) : String :=
  if py_startswith s pre then String.mk (s.data.drop pre.data.length) else s

/-- Python slice `s[n:]` (code-point indexing). -/
def py_slice_from (s : String) (n : Nat) : String :=
  String.mk (s.data.drop n)

/-- Python `s.strip()`: remove leading and trailing whitespace. -/
def py_strip (s : String) : String :=
  String.mk (((s.data.dropWhile Char.isWhitespace).reverse.dropWhile Char.isWhitespace).reverse)

/-- The central data store (external collaborator; opaque to this screen). -/
structure DataStore where
deriving DecidableEq

/-- The widgets the factory `_create_widget` can produce: the six custom
widgets bound to the shared data store, or a `Static` placeholder label. -/
inductive Widget where
  | RawResponses (data_store : DataStore)
  | Registers (data_store : DataStore)
  | Stack (data_store : DataStore)
  | Output (data_store : DataStore)
  | Disassembly (data_store : DataStore)
  | Backtrace (data_store : DataStore)
  | Static (label : String)
deriving DecidableEq

/-- Factory `MainView._create_widget`: map a widget-name token to a widget
instance; unknown tokens yield a `Static` placeholder carrying the token. -/
def _create_widget (data_store : DataStore) (widget_name : String) : Widget :=
  if widget_name = "RawResponses" then Widget.RawResponses data_store
  else if widget_name = "Registers" then Widget.Registers data_store
  else if widget_name = "Stack" then Widget.Stack data_store
  else if widget_name = "Output" then Widget.Output data_store
  else if widget_name = "Disassembly" then Widget.Disassembly data_store
  else if widget_name = "Backtrace" then Widget.Backtrace data_store
  else Widget.Static ("Unknown widget: " ++ widget_name)

/-- The six widget-name tokens `_create_widget` recognises. -/
def known_widget_names : List String :=
  ["RawResponses", "Registers", "Stack", "Output", "Disassembly", "Backtrace"]

/-- Content hosted by a tab pane: the sentinel panes hold an "Add Tab" button;
panes created by `add_tab` hold the chosen widget (inside its scroll
containers, which carry no state of their own) plus a "Close Tab" button. -/
inductive PaneContent where
  | addButton (button_id : String)
  | widgetContent (widget : Widget) (delete_button_id : String)
deriving DecidableEq

/-- One `TabPane`: its DOM id, its display label, and its content. -/
structure TabPane where
  id : String
  label : String
  content : PaneContent
deriving DecidableEq

/-- The `add_tab_map` dictionary from `MainView.__init__`, kept as an
association list because `delete_tab` and `update_all_widgets` iterate its
keys in insertion order. -/
def add_tab_map : List (String × String) :=
  [("main_tabs", "add_main"),
   ("small_tabs_1", "add_small_1"),
   ("small_tabs_2", "add_small_2"),
   ("medium_tabs", "add_medium")]

/-- The four known region keys, in `add_tab_map` iteration order. -/
def region_keys : List String :=
  add_tab_map.map Prod.fst

/-- The sentinel ("[+]") pane id of a region, `self.add_tab_map[region]`. -/
def sentinel_id (region : String) : String :=
  ((add_tab_map.find? (fun e => e.1 == region)).map Prod.snd).getD ""

/-- State of the `MainView` screen: the per-region tab counters and ordered
pane sequences, the per-region active tab, the command history with its
cursor, the input field's value, the commands handed to the CoreMiner
process, and the shared data store. -/
structure MainView where
  tab_counters : String → Nat
  panes : String → List TabPane
  active : String → String
  command_history : List String
  history_index : Nat
  input_value : String
  sent_commands : List String
  data_store : DataStore

/-- The state after `__init__` and `compose`: counters at 0, each region
holding exactly its sentinel pane (which is also the active tab), empty
command history with cursor 0, empty input. -/
def initState : MainView where
  tab_counters := fun _ => 0
  panes := fun r =>
    if r = "main_tabs" then [⟨"add_main", "\\[+]", PaneContent.addButton "add_main_tabs"⟩]
    else if r = "small_tabs_1" then [⟨"add_small_1", "\\[+]", PaneContent.addButton "add_small_tabs_1"⟩]
    else if r = "small_tabs_2" then [⟨"add_small_2", "\\[+]", PaneContent.addButton "add_small_tabs_2"⟩]
    else if r = "medium_tabs" then [⟨"add_medium", "\\[+]", PaneContent.addButton "add_medium_tabs"⟩]
    else []
  active := fun r => if r ∈ region_keys then sentinel_id r else ""
  command_history := []
  history_index := 0
  input_value := ""
  sent_commands := []
  data_store := ⟨⟩

/-- Textual's `TabbedContent.add_pane(pane, before=before_id)`: insert the new
pane immediately before the pane with id `before_id`. (Textual raises if the
anchor id is absent; that branch is unreachable here because the sentinel is
always present, and is modelled by appending at the end.) -/
def insertBefore (before_id : String) (new_pane : TabPane) : List TabPane → List TabPane
  | [] => [new_pane]
  | p :: rest =>
      if p.id = before_id then new_pane :: p :: rest
      else p :: insertBefore before_id new_pane rest

/-- `MainView.add_tab`: if the region is unknown, log and return (state
unchanged). Otherwise increment the region's counter, name the new tab
`region_tab_counter`, build the widget, wrap it with a close button whose id
is `delete_region_tabid`, insert the pane immediately before the region's
sentinel tab, and activate it. -/
def add_tab (tabbed_content_id : String) (widget_name : String) (s : MainView) : MainView :=
  if tabbed_content_id ∈ region_keys then
    let counter_value := s.tab_counters tabbed_content_id + 1
    let new_tab_id := tabbed_content_id ++ "_tab_" ++ toString counter_value
    let new_tab_name := widget_name
    let widget := _create_widget s.data_store widget_name
    let delete_button_id := "delete_" ++ tabbed_content_id ++ "_" ++ new_tab_id
    let add_tab_id := sentinel_id tabbed_content_id
    { s with
      tab_counters := fun k => if k = tabbed_content_id then counter_value else s.tab_counters k,
      panes := fun k =>
        if k = tabbed_content_id then
          insertBefore add_tab_id ⟨new_tab_id, new_tab_name, PaneContent.widgetContent widget delete_button_id⟩ (s.panes k)
        else s.panes k,
      active := fun k => if k = tabbed_content_id then new_tab_id else s.active k }
  else s

/-- The parsing loop inside `MainView.delete_tab`: scan the known regions in
`add_tab_map` order and take the first whose key followed by an underscore
leads the remainder; recover the region and the tab id after it. -/
def find_region (remainder : String) : List (String × String) → Option (String × String)
  | [] => none
  | (candidate_id, _) :: rest =>
      if py_startswith remainder (candidate_id ++ "_") then
        some (candidate_id, py_slice_from remainder (candidate_id ++ "_").data.length)
      else find_region remainder rest

/-- Close-control id parsing, lines 291-300 of `delete_tab`: strip the
`delete_` lead, then find the first matching region key. -/
def parse_close_control_id (delete_button_id : String) : Option (String × String) :=
  find_region (py_removestart delete_button_id "delete_") add_tab_map

/-- `MainView.delete_tab`: parse the close-control id; if no region matches,
or the recovered tab id is empty, or it is the region's sentinel id, do
nothing; otherwise remove the pane with that id from the region. -/
def delete_tab (delete_button_id : String) (s : MainView) : MainView :=
  match parse_close_control_id delete_button_id with
  | none => s
  | some (tabbed_content_id, tab_id) =>
      if tab_id = "" then s
      else if tab_id = sentinel_id tabbed_content_id then s
      else
        { s with
          panes := fun k =>
            if k = tabbed_content_id then (s.panes k).filter (fun p => p.id != tab_id)
            else s.panes k }

/-- `MainView.process_command`: append to history and send to CoreMiner. -/
def process_command (command : String) (s : MainView) : MainView :=
  { s with
    command_history := s.command_history ++ [command],
    sent_commands := s.sent_commands ++ [command] }

/-- `MainView.on_input_submitted`: for the command input, strip the value;
a non-empty command is processed; the field is cleared and the history
cursor is set to one past the end of the (possibly extended) history. -/
def on_input_submitted (input_id : String) (value : String) (s : MainView) : MainView :=
  if input_id = "command_input" then
    let command := py_strip value
    let s1 := if command ≠ "" then process_command command s else s
    { s1 with input_value := "", history_index := s1.command_history.length }
  else s

/-- `MainView.on_key`: Up/Down history recall, active only while the command
input has focus. Up decrements the cursor when positive and displays the
entry at the cursor when in range (the Python guard `0 <= i` is automatic
for `Nat`); Down increments the cursor when below the history length, then
displays the empty string at one-past-end and the indexed entry otherwise. -/
def on_key (key : String) (has_focus : Bool) (s : MainView) : MainView :=
  if !has_focus then s
  else if key = "up" then
    let i := if 0 < s.history_index then s.history_index - 1 else s.history_index
    let s1 := { s with history_index := i }
    if i < s1.command_history.length then
      { s1 with input_value := s1.command_history.getD i "" }
    else s1
  else if key = "down" then
    let i := if s.history_index < s.command_history.length then s.history_index + 1 else s.history_index
    let s1 := { s with history_index := i }
    if i = s1.command_history.length then { s1 with input_value := "" }
    else { s1 with input_value := s1.command_history.getD i "" }
  else s

/-- Editing the command input: the source installs no handler for input
change events (only `on_key`, `on_input_submitted`, `on_button_pressed`
exist), so an edit changes the input widget's displayed value and nothing
else of the screen's state. -/
def edit_input (value : String) (s : MainView) : MainView :=
  { s with input_value := value }

/-- A mounted child widget as seen by the reflection dispatch in
`update_all_widgets`: all that matters is whether it exposes a callable
`update_content`. The name tags the widget so invocations can be traced. -/
structure UChild where
  name : String
  has_update_content : Bool
deriving DecidableEq

/-- A mounted `TabPane` as enumerated by `tabbed_content.query("TabPane")`:
its DOM id and the child widgets inside it, in query order. -/
structure UPane where
  id : String
  children : List UChild
deriving DecidableEq

/-- Concatenation of the images of a list, used to state the declarative
form of the nested update loops. -/
def listFlat (f : α → List β) : List α → List β
  | [] => []
  | a :: as => f a ++ listFlat f as

/-- `MainView.update_all_widgets`, as the trace of `update_content`
invocations it performs: for each region in `add_tab_map` order, for each of
the region's panes in order, skip the sentinel pane, and for every child
exposing a callable `update_content`, invoke it (record its name). -/
def update_all_widgets (pane_map : String → List UPane) : List String :=
  add_tab_map.foldl (fun acc rp =>
    (pane_map rp.1).foldl (fun acc2 pane =>
      if pane.id = rp.2 then acc2
      else pane.children.foldl (fun acc3 c =>
        if c.has_update_content then acc3 ++ [c.name] else acc3) acc2) acc) []

/-- The non-sentinel panes in region-then-tab enumeration order: the panes
`update_all_widgets` visits. -/
def visited_panes (pane_map : String → List UPane) : List UPane :=
  listFlat (fun rp => (pane_map rp.1).filter (fun p => p.id != rp.2)) add_tab_map

/-- `MainView.check_coreminer_output`: a poll tick triggers exactly one
broadcast update when a response is present and nothing otherwise. -/
def check_coreminer_output (response : Option Unit) (pane_map : String → List UPane) : List String :=
  match response with
  | some _ => update_all_widgets pane_map
  | none => []

/-- A single user-visible tab operation, for stating invariants over
interleaved sequences of `add_tab` and `delete_tab` calls. -/
inductive Op where
  | add (region : String) (widget_name : String)
  | del (delete_button_id : String)

/-- Apply one tab operation to the screen state. -/
def applyOp (s : MainView) : Op → MainView
  | Op.add r w => add_tab r w s
  | Op.del b => delete_tab b s

/-- Run a sequence of tab operations from the initial state. -/
def runOps (ops : List Op) : MainView :=
  ops.foldl applyOp initState

/-- The ordinals that the `add_tab` calls targeting region `r` assign, in
order, along a sequence of operations started in state `s`: a successful
`add_tab r _` assigns `s.tab_counters r + 1` as the new tab's ordinal. -/
def ordinalsFrom (r : String) (s : MainView) : List Op → List Nat
  | [] => []
  | Op.add r1 w :: rest =>
      if r1 = r ∧ r1 ∈ region_keys then
        (s.tab_counters r + 1) :: ordinalsFrom r (applyOp s (Op.add r1 w)) rest
      else ordinalsFrom r (applyOp s (Op.add r1 w)) rest
  | Op.del b :: rest => ordinalsFrom r (applyOp s (Op.del b)) rest

/-- The sentinel pane of region `r` is present in `r`'s pane sequence and is
its last entry. -/
def sentinel_last (s : MainView) (r : String) : Prop :=
  sentinel_id r ∈ (s.panes r).map TabPane.id ∧
  ((s.panes r).getLast?).map TabPane.id = some (sentinel_id r)

/-- The screen state after submitting the commands "a" then "b" through the
command input: history ["a", "b"] with the cursor one past the end. -/
def historyABState : MainView :=
  on_input_submitted "command_input" "b" (on_input_submitted "command_input" "a" initState)

/-- A concrete mounted-pane layout used to exercise the broadcast update:
two regions populated, each holding its sentinel pane and one content pane,
with children both exposing and lacking `update_content`. -/
def demo_pane_map : String → List UPane := fun r =>
  if r = "main_tabs" then
    [⟨"main_tabs_tab_1", [⟨"w1", true⟩, ⟨"w2", false⟩]⟩, ⟨"add_main", [⟨"btn", false⟩]⟩]
  else if r = "medium_tabs" then
    [⟨"add_medium", [⟨"btn2", true⟩]⟩, ⟨"medium_tabs_tab_1", [⟨"w3", true⟩]⟩]
  else []

/-- The content pane of the demo layout. -/
def demo_pane : UPane :=
  ⟨"main_tabs_tab_1", [⟨"w1", true⟩, ⟨"w2", false⟩]⟩

theorem string_append_empty (s : String) : s ++ "" = s := by
  cases s with
  | mk data => exact congrArg String.mk (List.append_nil data)

/-- C5: for every region argument that is not one of the four known region
keys, `add_tab` returns without touching any part of the screen state. -/
theorem add_tab_unknown_region_noop (s : MainView) (r w : String) (hr : r ∉ region_keys) :
    add_tab r w s = s := by
  unfold add_tab
  rw [if_neg hr]

theorem add_tab_unknown_region_noop_witness :
    "bogus" ∉ region_keys ∧ add_tab "bogus" "Output" initState = initState :=
  ⟨by decide, add_tab_unknown_region_noop initState "bogus" "Output" (by decide)⟩

/-- C4: when the close-control id parses to no region, or to an empty tab
id, or to the region's sentinel tab id, `delete_tab` is a no-op: the whole
screen state (every region's pane sequence, every counter, the command
history) is unchanged. -/
theorem delete_tab_noop (s : MainView) (bid : String)
    (h : parse_close_control_id bid = none ∨
         ∃ r tid, parse_close_control_id bid = some (r, tid) ∧
           (tid = "" ∨ tid = sentinel_id r)) :
    delete_tab bid s = s := by
  unfold delete_tab
  rcases h with h | ⟨r, tid, h, htid⟩
  · rw [h]
  · rw [h]
    rcases htid with rfl | rfl
    · simp
    · by_cases he : sentinel_id r = ""
      · simp [he]
      · simp [he]

theorem delete_tab_noop_witness :
    (parse_close_control_id "delete_main_tabs_add_main" = some ("main_tabs", "add_main") ∧
     "add_main" = sentinel_id "main_tabs" ∧
     parse_close_control_id "oops_no_region" = none) ∧
    delete_tab "delete_main_tabs_add_main" initState = initState ∧
    delete_tab "oops_no_region" initState = initState :=
  ⟨⟨by decide, by decide, by decide⟩,
   delete_tab_noop initState "delete_main_tabs_add_main"
     (Or.inr ⟨"main_tabs", "add_main", by decide, Or.inr (by decide)⟩),
   delete_tab_noop initState "oops_no_region" (Or.inl (by decide))⟩

/-- C10: submitting a value that strips to the empty string leaves the
command history and the stream of commands sent to CoreMiner unchanged,
yet still clears the input field and resets the history cursor to
one-past-end of the history. -/
theorem empty_submission (s : MainView) (v : String) (h : py_strip v = "") :
    (on_input_submitted "command_input" v s).command_history = s.command_history ∧
    (on_input_submitted "command_input" v s).sent_commands = s.sent_commands ∧
    (on_input_submitted "command_input" v s).input_value = "" ∧
    (on_input_submitted "command_input" v s).history_index = s.command_history.length := by
  unfold on_input_submitted
  simp [h]

theorem empty_submission_witness :
    py_strip "   " = "" ∧
    (on_input_submitted "command_input" "   " historyABState).command_history =
      historyABState.command_history ∧
    (on_input_submitted "command_input" "   " historyABState).sent_commands =
      historyABState.sent_commands ∧
    (on_input_submitted "command_input" "   " historyABState).input_value = "" ∧
    (on_input_submitted "command_input" "   " historyABState).history_index =
      historyABState.command_history.length :=
  ⟨by decide, empty_submission historyABState "   " (by decide)⟩

/-- C6: with history ["a", "b"] and the cursor one past the end, Up, Up,
Down leaves the input displaying "b"; three Ups pin the cursor at index 0
displaying "a"; and a Down that brings the cursor to the history length
displays the empty string. -/
theorem history_navigation_scenario :
    historyABState.command_history = ["a", "b"] ∧
    historyABState.history_index = historyABState.command_history.length ∧
    (on_key "down" true (on_key "up" true (on_key "up" true historyABState))).input_value = "b" ∧
    (on_key "up" true (on_key "up" true (on_key "up" true historyABState))).history_index = 0 ∧
    (on_key "up" true (on_key "up" true (on_key "up" true historyABState))).input_value = "a" ∧
    (on_key "down" true (on_key "down" true (on_key "up" true
      (on_key "up" true historyABState)))).input_value = "" := by
  decide

/-- C7 counterexample: after an edit of the command input the history cursor
can differ from the history length — press Up once (cursor moves to 1), then
edit the input: the cursor stays at 1 while the history has length 2. -/
theorem edit_leaves_cursor_counterexample :
    ¬ ((edit_input "x" (on_key "up" true historyABState)).history_index =
       (edit_input "x" (on_key "up" true historyABState)).command_history.length) := by
  decide

/-- C7 amended: after each submission through the command input the history
cursor equals the history length; an edit of the input leaves the cursor
unchanged (the code installs no handler that reacts to edits), so after an
edit the cursor need not be one past the end. -/
theorem cursor_reset_on_submission (v : String) (s : MainView) :
    (on_input_submitted "command_input" v s).history_index =
      (on_input_submitted "command_input" v s).command_history.length ∧
    (edit_input v s).history_index = s.history_index := by
  exact ⟨rfl, rfl⟩

/-- C9: the widget factory is total: each of the six known tokens yields the
corresponding widget bound to the shared data store, and every unknown token
yields a `Static` placeholder whose label contains the literal token. -/
theorem create_widget_spec (ds : DataStore) (name : String) (h : name ∉ known_widget_names) :
    _create_widget ds "RawResponses" = Widget.RawResponses ds ∧
    _create_widget ds "Registers" = Widget.Registers ds ∧
    _create_widget ds "Stack" = Widget.Stack ds ∧
    _create_widget ds "Output" = Widget.Output ds ∧
    _create_widget ds "Disassembly" = Widget.Disassembly ds ∧
    _create_widget ds "Backtrace" = Widget.Backtrace ds ∧
    _create_widget ds name = Widget.Static ("Unknown widget: " ++ name) ∧
    ∃ before after, "Unknown widget: " ++ name = before ++ name ++ after := by
  simp only [known_widget_names, List.mem_cons, List.not_mem_nil, or_false, not_or] at h
  obtain ⟨h1, h2, h3, h4, h5, h6⟩ := h
  refine ⟨rfl, rfl, rfl, rfl, rfl, rfl, ?_, "Unknown widget: ", "", ?_⟩
  · simp [_create_widget, h1, h2, h3, h4, h5, h6]
  · rw [string_append_empty]

theorem create_widget_spec_witness :
    "Frobnicate" ∉ known_widget_names ∧
    (_create_widget ⟨⟩ "RawResponses" = Widget.RawResponses ⟨⟩ ∧
     _create_widget ⟨⟩ "Registers" = Widget.Registers ⟨⟩ ∧
     _create_widget ⟨⟩ "Stack" = Widget.Stack ⟨⟩ ∧
     _create_widget ⟨⟩ "Output" = Widget.Output ⟨⟩ ∧
     _create_widget ⟨⟩ "Disassembly" = Widget.Disassembly ⟨⟩ ∧
     _create_widget ⟨⟩ "Backtrace" = Widget.Backtrace ⟨⟩ ∧
     _create_widget ⟨⟩ "Frobnicate" = Widget.Static ("Unknown widget: " ++ "Frobnicate") ∧
     ∃ before after, "Unknown widget: " ++ "Frobnicate" = before ++ "Frobnicate" ++ after) :=
  ⟨by decide, create_widget_spec ⟨⟩ "Frobnicate" (by decide)⟩

theorem insertBefore_ne_nil (sid : String) (np : TabPane) (l : List TabPane) :
    insertBefore sid np l ≠ [] := by
  cases l with
  | nil => simp [insertBefore]
  | cons p ps =>
      unfold insertBefore
      split <;> simp

theorem getLast_insertBefore (sid : String) (np : TabPane) :
    ∀ (l : List TabPane) (q : TabPane), l.getLast? = some q → q.id = sid →
      (insertBefore sid np l).getLast? = some q := by
  intro l
  induction l with
  | nil => intro q h _; simp at h
  | cons p ps IH =>
    intro q h hid
    cases ps with
    | nil =>
      simp [List.getLast?] at h
      subst h
      rw [insertBefore, if_pos hid]
      rfl
    | cons p2 ps2 =>
      rw [List.getLast?_cons_cons] at h
      by_cases hp : p.id = sid
      · rw [insertBefore, if_pos hp, List.getLast?_cons_cons, List.getLast?_cons_cons]
        exact h
      · rw [insertBefore, if_neg hp]
        obtain ⟨y, ys, hys⟩ : ∃ y ys, insertBefore sid np (p2 :: ps2) = y :: ys := by
          cases hx : insertBefore sid np (p2 :: ps2) with
          | nil => exact absurd hx (insertBefore_ne_nil sid np (p2 :: ps2))
          | cons y ys => exact ⟨y, ys, rfl⟩
        rw [hys, List.getLast?_cons_cons, ← hys]
        exact IH q h hid

theorem mem_of_getLast_some {l : List TabPane} {q : TabPane} (h : l.getLast? = some q) :
    q ∈ l := by
  induction l with
  | nil => simp at h
  | cons p ps IH =>
    cases ps with
    | nil =>
      simp [List.getLast?] at h
      simp [h]
    | cons p2 ps2 =>
      rw [List.getLast?_cons_cons] at h
      exact List.mem_cons_of_mem p (IH h)

theorem sentinel_last_add_tab (a w r : String) (s : MainView)
    (h : sentinel_last s r) : sentinel_last (add_tab a w s) r := by
  unfold add_tab
  by_cases ha : a ∈ region_keys
  · rw [if_pos ha]
    unfold sentinel_last at h ⊢
    simp only
    by_cases hra : r = a
    · subst hra
      rw [if_pos rfl]
      obtain ⟨hmem, hlast⟩ := h
      obtain ⟨q, hq, hqid⟩ := Option.map_eq_some'.mp hlast
      have hins := getLast_insertBefore (sentinel_id r)
        ⟨r ++ "_tab_" ++ toString (s.tab_counters r + 1), w,
         PaneContent.widgetContent (_create_widget s.data_store w)
           ("delete_" ++ r ++ "_" ++ (r ++ "_tab_" ++ toString (s.tab_counters r + 1)))⟩
        (s.panes r) q hq hqid
      constructor
      · have hm := List.mem_map_of_mem TabPane.id (mem_of_getLast_some hins)
        rwa [hqid] at hm
      · rw [hins, Option.map_some', hqid]
    · rw [if_neg hra]
      exact h
  · rw [if_neg ha]
    exact h

/-- C1: for every known region and every sequence of `add_tab` calls (to any
regions), the sentinel add-affordance tab remains present in the region's tab
sequence and remains its last entry: each new pane is inserted immediately
before the sentinel. -/
theorem sentinel_tab_always_last (ops : List (String × String)) (r : String)
    (hr : r ∈ region_keys) :
    sentinel_last (ops.foldl (fun s op => add_tab op.1 op.2 s) initState) r := by
  have key : ∀ (l : List (String × String)) (s : MainView), sentinel_last s r →
      sentinel_last (l.foldl (fun s op => add_tab op.1 op.2 s) s) r := by
    intro l
    induction l with
    | nil => intro s h; exact h
    | cons op rest IH =>
      intro s h
      exact IH _ (sentinel_last_add_tab op.1 op.2 r s h)
  have hinit : sentinel_last initState r := by
    simp only [region_keys, add_tab_map, List.map_cons, List.map_nil, List.mem_cons,
      List.not_mem_nil, or_false] at hr
    rcases hr with rfl | rfl | rfl | rfl <;> exact ⟨by decide, by decide⟩
  exact key ops initState hinit

theorem sentinel_tab_always_last_witness :
    "main_tabs" ∈ region_keys ∧
    sentinel_last
      ([("main_tabs", "Output"), ("small_tabs_1", "Stack"), ("main_tabs", "Registers")].foldl
        (fun s op => add_tab op.1 op.2 s) initState) "main_tabs" :=
  ⟨by decide,
   sentinel_tab_always_last [("main_tabs", "Output"), ("small_tabs_1", "Stack"), ("main_tabs", "Registers")]
     "main_tabs" (by decide)⟩

theorem charsIsPfxOf_append_self (p t : List Char) : charsIsPfxOf p (p ++ t) = true := by
  induction p with
  | nil => rfl
  | cons a as IH => simp [charsIsPfxOf, IH]

theorem charsIsPfxOf_append_of_le (p : List Char) :
    ∀ (b t : List Char), p.length ≤ b.length → charsIsPfxOf p (b ++ t) = charsIsPfxOf p b := by
  induction p with
  | nil => intro b t _; cases b <;> rfl
  | cons a as IH =>
    intro b t h
    cases b with
    | nil => simp at h
    | cons c cs =>
      have h2 : as.length ≤ cs.length := by simpa using h
      show (a == c && charsIsPfxOf as (cs ++ t)) = (a == c && charsIsPfxOf as cs)
      rw [IH cs t h2]

theorem py_startswith_append_of_le (s pre t : String) (h : pre.data.length ≤ s.data.length) :
    py_startswith (s ++ t) pre = py_startswith s pre := by
  show charsIsPfxOf pre.data (s.data ++ t.data) = charsIsPfxOf pre.data s.data
  exact charsIsPfxOf_append_of_le pre.data s.data t.data h

theorem py_removestart_append (lead x : String) : py_removestart (lead ++ x) lead = x := by
  unfold py_removestart py_startswith
  have hd : (lead ++ x).data = lead.data ++ x.data := rfl
  rw [hd, charsIsPfxOf_append_self]
  simp only [if_true]
  rw [List.drop_left]

theorem find_region_head_match (cand sent tid : String) (rest : List (String × String)) :
    find_region ((cand ++ "_") ++ tid) ((cand, sent) :: rest) = some (cand, tid) := by
  unfold find_region py_startswith py_slice_from
  have hd : ((cand ++ "_") ++ tid).data = (cand ++ "_").data ++ tid.data := rfl
  rw [hd, charsIsPfxOf_append_self]
  simp only [if_true]
  rw [List.drop_left]

theorem find_region_head_skip (cand sent remainder : String) (rest : List (String × String))
    (h : py_startswith remainder (cand ++ "_") = false) :
    find_region remainder ((cand, sent) :: rest) = find_region remainder rest := by
  unfold find_region
  rw [h]
  simp only [Bool.false_eq_true, if_false]
  cases rest with
  | nil => rfl
  | cons e es => rfl

/-- C3: close-control id parsing round-trips tab creation: for every known
region and positive ordinal, the id `delete_{region}_{region}_tab_{n}` that
`add_tab` attaches to the close button parses back to exactly that region and
tab id, and no earlier region key in the scan order matches first. -/
theorem close_control_roundtrip (r : String) (n : Nat) (hr : r ∈ region_keys) (_hn : 1 ≤ n) :
    parse_close_control_id ("delete_" ++ r ++ "_" ++ (r ++ "_tab_" ++ toString n)) =
      some (r, r ++ "_tab_" ++ toString n) := by
  simp only [region_keys, add_tab_map, List.map_cons, List.map_nil, List.mem_cons,
    List.not_mem_nil, or_false] at hr
  unfold parse_close_control_id
  rcases hr with rfl | rfl | rfl | rfl
  · have h1 : ("delete_" ++ "main_tabs" ++ "_" ++ ("main_tabs" ++ "_tab_" ++ toString n)) =
        "delete_" ++ (("main_tabs" ++ "_") ++ ("main_tabs_tab_" ++ toString n)) := rfl
    rw [h1, py_removestart_append]
    show find_region _ (("main_tabs", "add_main") :: _) = _
    rw [find_region_head_match]
    rfl
  · have h1 : ("delete_" ++ "small_tabs_1" ++ "_" ++ ("small_tabs_1" ++ "_tab_" ++ toString n)) =
        "delete_" ++ ("small_tabs_1_small_tabs_1_tab_" ++ toString n) := rfl
    rw [h1, py_removestart_append]
    show find_region _ (("main_tabs", "add_main") :: ("small_tabs_1", "add_small_1") :: _) = _
    rw [find_region_head_skip _ _ _ _ (by
      rw [py_startswith_append_of_le _ _ _ (by decide)]
      decide)]
    have h2 : ("small_tabs_1_small_tabs_1_tab_" ++ toString n) =
        ("small_tabs_1" ++ "_") ++ ("small_tabs_1_tab_" ++ toString n) := rfl
    rw [h2, find_region_head_match]
    rfl
  · have h1 : ("delete_" ++ "small_tabs_2" ++ "_" ++ ("small_tabs_2" ++ "_tab_" ++ toString n)) =
        "delete_" ++ ("small_tabs_2_small_tabs_2_tab_" ++ toString n) := rfl
    rw [h1, py_removestart_append]
    show find_region _ (("main_tabs", "add_main") :: ("small_tabs_1", "add_small_1") ::
      ("small_tabs_2", "add_small_2") :: _) = _
    rw [find_region_head_skip _ _ _ _ (by
      rw [py_startswith_append_of_le _ _ _ (by decide)]
      decide)]
    rw [find_region_head_skip _ _ _ _ (by
      rw [py_startswith_append_of_le _ _ _ (by decide)]
      decide)]
    have h2 : ("small_tabs_2_small_tabs_2_tab_" ++ toString n) =
        ("small_tabs_2" ++ "_") ++ ("small_tabs_2_tab_" ++ toString n) := rfl
    rw [h2, find_region_head_match]
    rfl
  · have h1 : ("delete_" ++ "medium_tabs" ++ "_" ++ ("medium_tabs" ++ "_tab_" ++ toString n)) =
        "delete_" ++ ("medium_tabs_medium_tabs_tab_" ++ toString n) := rfl
    rw [h1, py_removestart_append]
    show find_region _ (("main_tabs", "add_main") :: ("small_tabs_1", "add_small_1") ::
      ("small_tabs_2", "add_small_2") :: ("medium_tabs", "add_medium") :: _) = _
    rw [find_region_head_skip _ _ _ _ (by
      rw [py_startswith_append_of_le _ _ _ (by decide)]
      decide)]
    rw [find_region_head_skip _ _ _ _ (by
      rw [py_startswith_append_of_le _ _ _ (by decide)]
      decide)]
    rw [find_region_head_skip _ _ _ _ (by
      rw [py_startswith_append_of_le _ _ _ (by decide)]
      decide)]
    have h2 : ("medium_tabs_medium_tabs_tab_" ++ toString n) =
        ("medium_tabs" ++ "_") ++ ("medium_tabs_tab_" ++ toString n) := rfl
    rw [h2, find_region_head_match]
    rfl

theorem close_control_roundtrip_witness :
    ("small_tabs_2" ∈ region_keys ∧ 1 ≤ 7) ∧
    parse_close_control_id
        ("delete_" ++ "small_tabs_2" ++ "_" ++ ("small_tabs_2" ++ "_tab_" ++ toString 7)) =
      some ("small_tabs_2", "small_tabs_2" ++ "_tab_" ++ toString 7) :=
  ⟨⟨by decide, by decide⟩, close_control_roundtrip "small_tabs_2" 7 (by decide) (by decide)⟩

theorem tab_counters_add_tab (a w : String) (s : MainView) (k : String) :
    (add_tab a w s).tab_counters k =
      if a ∈ region_keys ∧ k = a then s.tab_counters k + 1 else s.tab_counters k := by
  unfold add_tab
  by_cases ha : a ∈ region_keys
  · rw [if_pos ha]
    by_cases hk : k = a
    · subst hk
      simp [ha]
    · simp [ha, hk]
  · rw [if_neg ha]
    simp [ha]

theorem tab_counters_delete_tab (b : String) (s : MainView) (k : String) :
    (delete_tab b s).tab_counters k = s.tab_counters k := by
  unfold delete_tab
  cases h : parse_close_control_id b with
  | none => rfl
  | some rt =>
    cases rt with
    | mk r tid =>
      by_cases h1 : tid = ""
      · simp [h1]
      · by_cases h2 : tid = sentinel_id r
        · simp [h1, h2]
        · simp [h1, h2]

theorem tab_counters_mono (s : MainView) (op : Op) (k : String) :
    s.tab_counters k ≤ (applyOp s op).tab_counters k := by
  cases op with
  | add r w =>
    show s.tab_counters k ≤ (add_tab r w s).tab_counters k
    rw [tab_counters_add_tab]
    split
    · exact Nat.le_succ _
    · exact Nat.le_refl _
  | del b =>
    show s.tab_counters k ≤ (delete_tab b s).tab_counters k
    rw [tab_counters_delete_tab]

theorem mem_insertBefore (sid : String) (np : TabPane) (l : List TabPane) :
    np ∈ insertBefore sid np l := by
  induction l with
  | nil => simp [insertBefore]
  | cons p ps IH =>
    unfold insertBefore
    split
    · exact List.mem_cons_self np (p :: ps)
    · exact List.mem_cons_of_mem p IH

theorem ordinalsFrom_chain (r : String) :
    ∀ (ops : List Op) (s : MainView),
      List.Chain' (· < ·) (ordinalsFrom r s ops) ∧
      ∀ x ∈ ordinalsFrom r s ops, s.tab_counters r < x := by
  intro ops
  induction ops with
  | nil =>
    intro s
    exact ⟨List.chain'_nil, by intro x hx; simp [ordinalsFrom] at hx⟩
  | cons op rest IH =>
    intro s
    cases op with
    | add r1 w =>
      obtain ⟨IH1, IH2⟩ := IH (applyOp s (Op.add r1 w))
      have hmono := tab_counters_mono s (Op.add r1 w) r
      by_cases hc : r1 = r ∧ r1 ∈ region_keys
      · have hcount : (applyOp s (Op.add r1 w)).tab_counters r = s.tab_counters r + 1 := by
          show (add_tab r1 w s).tab_counters r = s.tab_counters r + 1
          rw [tab_counters_add_tab]
          rw [if_pos ⟨hc.2, hc.1.symm⟩]
        rw [ordinalsFrom, if_pos hc]
        constructor
        · refine List.chain'_cons'.mpr ⟨?_, IH1⟩
          intro y hy
          have hym := List.mem_of_mem_head? hy
          have := IH2 y hym
          omega
        · intro x hx
          rcases List.mem_cons.mp hx with rfl | hx2
          · exact Nat.lt_succ_self _
          · have := IH2 x hx2
            omega
      · rw [ordinalsFrom, if_neg hc]
        refine ⟨IH1, ?_⟩
        intro x hx
        have := IH2 x hx
        omega
    | del b =>
      obtain ⟨IH1, IH2⟩ := IH (applyOp s (Op.del b))
      have hmono := tab_counters_mono s (Op.del b) r
      rw [ordinalsFrom]
      refine ⟨IH1, ?_⟩
      intro x hx
      have := IH2 x hx
      omega

/-- C2: tab ordinals within a region are strictly increasing and never
reused across any interleaving of `add_tab` and `delete_tab`: the ordinal
trace of a region is strictly ascending, no operation ever decreases a
region counter, and a successful `add_tab` increments the region's counter
and names the new tab with the incremented ordinal. -/
theorem tab_ordinals_strictly_increasing (ops : List Op) (r w : String) (s : MainView)
    (op : Op) (hr : r ∈ region_keys) :
    List.Chain' (· < ·) (ordinalsFrom r initState ops) ∧
    s.tab_counters r ≤ (applyOp s op).tab_counters r ∧
    (add_tab r w s).tab_counters r = s.tab_counters r + 1 ∧
    (r ++ "_tab_" ++ toString (s.tab_counters r + 1)) ∈
      ((add_tab r w s).panes r).map TabPane.id := by
  refine ⟨(ordinalsFrom_chain r ops initState).1, tab_counters_mono s op r, ?_, ?_⟩
  · rw [tab_counters_add_tab]
    rw [if_pos ⟨hr, rfl⟩]
  · unfold add_tab
    rw [if_pos hr]
    simp only [if_true]
    exact List.mem_map_of_mem TabPane.id (mem_insertBefore _ _ _)

theorem tab_ordinals_strictly_increasing_witness :
    "main_tabs" ∈ region_keys ∧
    (List.Chain' (· < ·) (ordinalsFrom "main_tabs" initState
      [Op.add "main_tabs" "Output", Op.del "delete_main_tabs_main_tabs_tab_1",
       Op.add "main_tabs" "Stack"]) ∧
     initState.tab_counters "main_tabs" ≤
       (applyOp initState (Op.del "delete_main_tabs_main_tabs_tab_1")).tab_counters "main_tabs" ∧
     (add_tab "main_tabs" "Output" initState).tab_counters "main_tabs" =
       initState.tab_counters "main_tabs" + 1 ∧
     ("main_tabs" ++ "_tab_" ++ toString (initState.tab_counters "main_tabs" + 1)) ∈
       ((add_tab "main_tabs" "Output" initState).panes "main_tabs").map TabPane.id) :=
  ⟨by decide,
   tab_ordinals_strictly_increasing
     [Op.add "main_tabs" "Output", Op.del "delete_main_tabs_main_tabs_tab_1",
      Op.add "main_tabs" "Stack"]
     "main_tabs" "Output" initState (Op.del "delete_main_tabs_main_tabs_tab_1") (by decide)⟩

theorem listFlat_append (f : α → List β) :
    ∀ (l1 l2 : List α), listFlat f (l1 ++ l2) = listFlat f l1 ++ listFlat f l2 := by
  intro l1 l2
  induction l1 with
  | nil => rfl
  | cons a as IH => simp [listFlat, IH, List.append_assoc]

theorem mem_listFlat (f : α → List β) (x : β) :
    ∀ l : List α, x ∈ listFlat f l ↔ ∃ a ∈ l, x ∈ f a := by
  intro l
  induction l with
  | nil => simp [listFlat]
  | cons a as IH => simp [listFlat, List.mem_append, IH, List.mem_cons, or_and_right, exists_or,
      exists_eq_left]

theorem listFlat_sublist (f g : α → List β) (h : ∀ a, List.Sublist (f a) (g a)) :
    ∀ l : List α, List.Sublist (listFlat f l) (listFlat g l) := by
  intro l
  induction l with
  | nil => exact List.Sublist.refl _
  | cons a as IH => exact List.Sublist.append (h a) IH

theorem foldl_children (cs : List UChild) :
    ∀ acc : List String,
      cs.foldl (fun acc3 c => if c.has_update_content then acc3 ++ [c.name] else acc3) acc
      = acc ++ (cs.filter (fun c => c.has_update_content)).map (fun c => c.name) := by
  induction cs with
  | nil => intro acc; simp
  | cons c cs IH =>
    intro acc
    cases hc : c.has_update_content
    · simp [List.foldl_cons, hc, IH]
    · simp [List.foldl_cons, hc, IH]

theorem foldl_panes (plus : String) (ps : List UPane) :
    ∀ acc : List String,
      ps.foldl (fun acc2 pane =>
        if pane.id = plus then acc2
        else pane.children.foldl (fun acc3 c =>
          if c.has_update_content then acc3 ++ [c.name] else acc3) acc2) acc
      = acc ++ listFlat (fun q => (q.children.filter (fun c => c.has_update_content)).map
          (fun c => c.name)) (ps.filter (fun p => p.id != plus)) := by
  induction ps with
  | nil => intro acc; simp [listFlat]
  | cons p ps IH =>
    intro acc
    by_cases hp : p.id = plus
    · rw [List.foldl_cons, if_pos hp, IH]
      have hb : (p.id != plus) = false := by simp [hp]
      simp [List.filter_cons, hb]
    · rw [List.foldl_cons, if_neg hp, foldl_children, IH]
      have hb : (p.id != plus) = true := by simp [hp]
      simp [List.filter_cons, hb, listFlat, List.append_assoc]

theorem foldl_regions (pane_map : String → List UPane) :
    ∀ (m : List (String × String)) (acc : List String),
      m.foldl (fun acc rp =>
        (pane_map rp.1).foldl (fun acc2 pane =>
          if pane.id = rp.2 then acc2
          else pane.children.foldl (fun acc3 c =>
            if c.has_update_content then acc3 ++ [c.name] else acc3) acc2) acc) acc
      = acc ++ listFlat (fun q => (q.children.filter (fun c => c.has_update_content)).map
          (fun c => c.name))
          (listFlat (fun rp => (pane_map rp.1).filter (fun p => p.id != rp.2)) m) := by
  intro m
  induction m with
  | nil => intro acc; simp [listFlat]
  | cons rp m IH =>
    intro acc
    rw [List.foldl_cons, foldl_panes, IH]
    show _ = acc ++ listFlat _ ((pane_map rp.1).filter (fun p => p.id != rp.2) ++ listFlat _ m)
    rw [listFlat_append, List.append_assoc]

/-- C8: the broadcast update visits exactly the non-sentinel panes, each once
(given that the mounted panes are distinct), in region-then-tab order, and
invokes `update_content` on exactly those children that expose it, in child
order; a poll tick dispatches exactly one such broadcast when a response is
present and none otherwise. -/
theorem update_all_widgets_spec (pane_map : String → List UPane) (p : UPane)
    (h : (listFlat (fun rp => pane_map rp.1) add_tab_map).Nodup) :
    (visited_panes pane_map).Nodup ∧
    (p ∈ visited_panes pane_map ↔ ∃ rp ∈ add_tab_map, p ∈ pane_map rp.1 ∧ p.id ≠ rp.2) ∧
    update_all_widgets pane_map =
      listFlat (fun q => (q.children.filter (fun c => c.has_update_content)).map
        (fun c => c.name)) (visited_panes pane_map) ∧
    check_coreminer_output (some ()) pane_map = update_all_widgets pane_map ∧
    check_coreminer_output none pane_map = [] := by
  refine ⟨?_, ?_, ?_, rfl, rfl⟩
  · exact h.sublist (listFlat_sublist _ _ (fun rp => List.filter_sublist _) add_tab_map)
  · unfold visited_panes
    rw [mem_listFlat]
    constructor
    · rintro ⟨rp, hrp, hmem⟩
      have hf := List.mem_filter.mp hmem
      exact ⟨rp, hrp, hf.1, by simpa using hf.2⟩
    · rintro ⟨rp, hrp, hmem, hne⟩
      exact ⟨rp, hrp, List.mem_filter.mpr ⟨hmem, by simpa using hne⟩⟩
  · unfold update_all_widgets visited_panes
    rw [foldl_regions]
    rfl

theorem update_all_widgets_spec_witness :
    (listFlat (fun rp => demo_pane_map rp.1) add_tab_map).Nodup ∧
    ((visited_panes demo_pane_map).Nodup ∧
     (demo_pane ∈ visited_panes demo_pane_map ↔
       ∃ rp ∈ add_tab_map, demo_pane ∈ demo_pane_map rp.1 ∧ demo_pane.id ≠ rp.2) ∧
     update_all_widgets demo_pane_map =
       listFlat (fun q => (q.children.filter (fun c => c.has_update_content)).map
         (fun c => c.name)) (visited_panes demo_pane_map) ∧
     check_coreminer_output (some ()) demo_pane_map = update_all_widgets demo_pane_map ∧
     check_coreminer_output none demo_pane_map = []) :=
  ⟨by decide, update_all_widgets_spec demo_pane_map demo_pane (by decide)⟩
